import Mathlib

/-!
Shallow embedding of the client-side job/batch tracking and polling engine of
`src/frontend/main.js` (doctoimg).  The mutable browser state (localStorage
token, rendered task elements, `activeBatches`, `pollIntervals` and the live
`setInterval` timers) is modelled as an explicit record `St`; the event
handlers and callbacks of the source become state-transition functions.
JavaScript `Map`s are modelled as association lists (`mapGet`/`mapSet`/
`mapDelete` reproduce `Map.get`/`Map.set`/`Map.delete`), JavaScript `Set`s as
`Finset String`.
-/

namespace DocToImg

/-- A job record as returned by the conversion service and consumed by
`renderTask` (fields `task_id`, `batch_id`, `state`, `detail`,
`download_url`). Absent/null JSON fields are `none`. -/
structure TaskRec where
  task_id : String
  batch_id : Option String
  state : String
  detail : String
  download_url : Option String
deriving DecidableEq, Repr

/-- The user-visible state of one rendered task element: the text set by
`setState`, the text set by `setStatusMessage`, and whether the download
link is shown (`setDownload` is only called when `task.download_url` is
truthy, so the link can only be revealed, never hidden again). -/
structure TaskView where
  state : String
  detail : String
  hasDownload : Bool
deriving DecidableEq, Repr

/-- One entry of the `activeBatches` map: the immutable member set
(`taskIds`), the mutable completed set (`completed`), and whether the batch
container already holds a batch download button
(`container.querySelector('.batch-download')` is non-null). -/
structure Batch where
  taskIds : Finset String
  completed : Finset String
  hasButton : Bool
deriving DecidableEq

/-- `Map.get`: first binding of the key, if any. -/
def mapGet {α : Type} : List (String × α) → String → Option α
  | [], _ => none
  | kv :: rest, k => if kv.1 = k then some kv.2 else mapGet rest k

/-- `Map.set`: replace the binding in place if the key is present, otherwise
append a new binding at the end (JavaScript `Map` insertion order). -/
def mapSet {α : Type} : List (String × α) → String → α → List (String × α)
  | [], k, v => [(k, v)]
  | kv :: rest, k, v => if kv.1 = k then (k, v) :: rest else kv :: mapSet rest k v

/-- `Map.delete`: drop any binding of the key. -/
def mapDelete {α : Type} (m : List (String × α)) (k : String) : List (String × α) :=
  m.filter (fun kv => kv.1 != k)

/-- The whole mutable client state of `main.js`:
`token`/`user` model localStorage (`getToken`/`getUser`), `tasks` the
rendered task elements keyed by `task_id`, `activeBatches` the batch map,
`pollIntervals` the task-id → interval-handle map, `timers` the live
interval timers as (handle, task-id) pairs, and `nextTimer` the next fresh
handle that `setInterval` would return. -/
structure St where
  token : Option String
  user : Option String
  tasks : List (String × TaskView)
  activeBatches : List (String × Batch)
  pollIntervals : List (String × Nat)
  timers : List (Nat × String)
  nextTimer : Nat
deriving DecidableEq

/-- `clearInterval(h)`: the timer with handle `h` stops; idempotent. -/
def clearInterval (timers : List (Nat × String)) (h : Nat) : List (Nat × String) :=
  timers.filter (fun t => t.1 != h)

/-- Embeds `logout` (main.js lines 133-140): remove token and user, clear the
rendered task list (`tasksContainer.innerHTML = ''`), clear every interval
registered in `pollIntervals`, then empty the map.  The source never touches
`activeBatches` here, so the batch map is left as it is. -/
def logout (st : St) : St :=
  { st with
      token := none
      user := none
      tasks := []
      timers := st.pollIntervals.foldl (fun ts kv => clearInterval ts kv.2) st.timers
      pollIntervals := [] }

/-- Embeds the batch-tracking block of `renderTask` (main.js lines 267-277)
acting on one `activeBatches` entry: `batch.completed.add(task.task_id)`
always runs; the download button is created exactly when afterwards
`completed.size === taskIds.size` and the container has no button yet.
Returns the updated entry and whether the button was created on this call. -/
def batchStep (b : Batch) (id : String) : Batch × Bool :=
  let completed1 := insert id b.completed
  if completed1.card = b.taskIds.card ∧ b.hasButton = false then
    ({ b with completed := completed1, hasButton := true }, true)
  else
    ({ b with completed := completed1 }, false)

/-- Embeds `renderTask` (main.js lines 244-278): unconditionally write the
snapshot's `state` and `detail` into the task element (creating it on first
sight), reveal the download link when `download_url` is present, and — when
the snapshot is `completed` and carries a registered `batch_id` — run the
batch-tracking block.  DOM placement of the element (lines 252-258) has no
further observable effect and is not modelled.  The returned `Bool` reports
whether the batch download button was created by this call. -/
def renderTask (st : St) (task : TaskRec) : St × Bool :=
  let old := mapGet st.tasks task.task_id
  let hadDownload := match old with
    | some v => v.hasDownload
    | none => false
  let view : TaskView :=
    { state := task.state
      detail := task.detail
      hasDownload := hadDownload || task.download_url.isSome }
  let tasks1 := mapSet st.tasks task.task_id view
  match task.batch_id with
  | some bid =>
    if task.state = "completed" then
      match mapGet st.activeBatches bid with
      | some b =>
        let r := batchStep b task.task_id
        ({ st with tasks := tasks1, activeBatches := mapSet st.activeBatches bid r.1 }, r.2)
      | none => ({ st with tasks := tasks1 }, false)
    else ({ st with tasks := tasks1 }, false)
  | none => ({ st with tasks := tasks1 }, false)

/-- Embeds `pollTask` (main.js lines 280-315): if the task already has an
entry in `pollIntervals`, return unchanged; otherwise start a fresh interval
timer and record its handle in the map. -/
def pollTask (st : St) (taskId : String) : St :=
  match mapGet st.pollIntervals taskId with
  | some _ => st
  | none =>
    { st with
        timers := st.timers ++ [(st.nextTimer, taskId)]
        pollIntervals := mapSet st.pollIntervals taskId st.nextTimer
        nextTimer := st.nextTimer + 1 }

/-- Outcome of one status request issued by a poll cycle. -/
inductive PollResponse where
  | ok (data : TaskRec)
  | unauthorized
  | failure (code : Nat)
deriving DecidableEq, Repr

/-- Embeds the part of the `pollTask` interval callback that runs when the
awaited `fetch` resolves (main.js lines 295-312); `interval` is the handle
the callback closed over.  On 401: `logout()`, clear this interval, delete
this task's map entry, and show one alert (the returned count).  On a
successful response: `renderTask(data)` unconditionally — the source never
re-checks `pollIntervals` after the await — then stop polling if the state
is terminal.  Any other failure is only logged. -/
def applyPollResponse (st : St) (taskId : String) (interval : Nat)
    (r : PollResponse) : St × Nat :=
  match r with
  | .unauthorized =>
    let st1 := logout st
    ({ st1 with
        timers := clearInterval st1.timers interval
        pollIntervals := mapDelete st1.pollIntervals taskId }, 1)
  | .ok data =>
    let st1 := (renderTask st data).1
    if data.state = "completed" ∨ data.state = "failed" then
      ({ st1 with
          timers := clearInterval st1.timers interval
          pollIntervals := mapDelete st1.pollIntervals taskId }, 0)
    else (st1, 0)
  | .failure _ => (st, 0)

/-- Embeds the batch registration done by the upload handler
(main.js lines 415-419): `activeBatches.set(batchId, {taskIds, completed:
new Set(), container})` with a fresh container (no button yet). -/
def registerBatch (st : St) (batchId : String) (taskIds : Finset String) : St :=
  { st with activeBatches := mapSet st.activeBatches batchId ⟨taskIds, ∅, false⟩ }

/-- The background fields of the upload form as read by the submit handler. -/
structure UploadForm where
  background_type : Option String
  background_color : Option String
  background_image : Option String
deriving DecidableEq, Repr

/-- Embeds the background-field pruning of the upload submit handler
(main.js lines 365-371): `formData.delete('background_color')` unless the
selected type is `'color'`, and `formData.delete('background_image')` unless
it is `'image'` (a null `background_type` deletes both). -/
def prepareUpload (f : UploadForm) : UploadForm :=
  let f1 := if f.background_type ≠ some "color" then
    { f with background_color := none } else f
  if f.background_type ≠ some "image" then
    { f1 with background_image := none } else f1

/-- Applies a list of snapshots through `renderTask` in order, collecting for
each one whether it created the batch download button. -/
def applySnapshots (st : St) : List TaskRec → St × List Bool
  | [] => (st, [])
  | t :: rest =>
    let r := renderTask st t
    let r2 := applySnapshots r.1 rest
    (r2.1, r.2 :: r2.2)

/-- Folds the batch-tracking block of `renderTask` over a list of arriving
completed task ids, collecting the button-creation flags. -/
def batchFold (b : Batch) : List String → Batch × List Bool
  | [] => (b, [])
  | id :: rest =>
    let r := batchStep b id
    let r2 := batchFold r.1 rest
    (r2.1, r.2 :: r2.2)

/-- Restates the join condition in the spec's words: walking the arrival
order of completed ids with running completed set `C`, the flag is `true`
exactly on the arrival that first makes the completed set equal the member
set `M` — the arrival of the last distinct member. -/
def specJoinFlags (M : Finset String) : Finset String → List String → List Bool
  | _, [] => []
  | C, id :: rest =>
    decide (insert id C = M ∧ C ≠ M) :: specJoinFlags M (insert id C) rest

theorem mapGet_mapSet_self {α : Type} (m : List (String × α)) (k : String) (v : α) :
    mapGet (mapSet m k v) k = some v := by
  induction m with
  | nil => simp [mapGet, mapSet]
  | cons kv rest ih =>
    by_cases h : kv.1 = k
    · simp [mapSet, h, mapGet]
    · simp [mapSet, h, mapGet, ih]

theorem mapGet_none_forall {α : Type} (m : List (String × α)) (k : String)
    (h : mapGet m k = none) : ∀ kv ∈ m, kv.1 ≠ k := by
  induction m with
  | nil => intro kv hkv; exact absurd hkv (List.not_mem_nil kv)
  | cons kv0 rest ih =>
    intro kv hkv
    rw [mapGet] at h
    by_cases hk : kv0.1 = k
    · rw [if_pos hk] at h; exact absurd h (by simp)
    · rw [if_neg hk] at h
      rcases List.mem_cons.mp hkv with he | he
      · rw [he]; exact hk
      · exact ih h kv he

theorem mapSet_of_not_mem {α : Type} (m : List (String × α)) (k : String) (v : α)
    (h : mapGet m k = none) : mapSet m k v = m ++ [(k, v)] := by
  induction m with
  | nil => simp [mapSet]
  | cons kv rest ih =>
    rw [mapGet] at h
    by_cases hk : kv.1 = k
    · rw [if_pos hk] at h; exact absurd h (by simp)
    · rw [if_neg hk] at h
      simp [mapSet, hk, ih h]

theorem mem_foldl_clearInterval (l : List (String × Nat)) :
    ∀ (ts : List (Nat × String)) (t : Nat × String),
      t ∈ l.foldl (fun acc kv => clearInterval acc kv.2) ts →
      t ∈ ts ∧ ∀ kv ∈ l, t.1 ≠ kv.2 := by
  induction l with
  | nil =>
    intro ts t ht
    exact ⟨ht, by simp⟩
  | cons kv rest ih =>
    intro ts t ht
    rw [List.foldl_cons] at ht
    obtain ⟨h1, h2⟩ := ih _ t ht
    rw [clearInterval, List.mem_filter] at h1
    refine ⟨h1.1, ?_⟩
    intro kv2 hkv2
    rcases List.mem_cons.mp hkv2 with he | he
    · rw [he]
      simpa using h1.2
    · exact h2 kv2 he

theorem logout_timers_nil (st : St)
    (htm : ∀ t ∈ st.timers, ∃ kv ∈ st.pollIntervals, kv.2 = t.1) :
    (logout st).timers = [] := by
  rw [List.eq_nil_iff_forall_not_mem]
  intro t ht
  simp only [logout] at ht
  obtain ⟨h1, h2⟩ := mem_foldl_clearInterval st.pollIntervals st.timers t ht
  obtain ⟨kv, hkv, he⟩ := htm t h1
  exact h2 kv hkv he.symm

theorem batchStep_fst (b : Batch) (id : String) :
    (batchStep b id).1.taskIds = b.taskIds ∧
    (batchStep b id).1.completed = insert id b.completed := by
  simp only [batchStep]
  split
  · exact ⟨rfl, rfl⟩
  · exact ⟨rfl, rfl⟩

theorem renderTask_tasks_state (st : St) (t : TaskRec) :
    (mapGet (renderTask st t).1.tasks t.task_id).map TaskView.state = some t.state ∧
    (mapGet (renderTask st t).1.tasks t.task_id).map TaskView.detail = some t.detail := by
  cases hb : t.batch_id with
  | none => simp [renderTask, hb, mapGet_mapSet_self]
  | some bid =>
    by_cases hs : t.state = "completed"
    · cases hreg : mapGet st.activeBatches bid with
      | none => simp [renderTask, hb, hs, hreg, mapGet_mapSet_self]
      | some b => simp [renderTask, hb, hs, hreg, mapGet_mapSet_self]
    · simp [renderTask, hb, hs, mapGet_mapSet_self]

theorem renderTask_batch (st : St) (t : TaskRec) (bid : String) (b : Batch)
    (hb : t.batch_id = some bid) (hs : t.state = "completed")
    (hreg : mapGet st.activeBatches bid = some b) :
    (renderTask st t).1.activeBatches = mapSet st.activeBatches bid (batchStep b t.task_id).1 ∧
    (renderTask st t).2 = (batchStep b t.task_id).2 := by
  simp [renderTask, hb, hs, hreg]

theorem applyPollResponse_ok_tasks (st : St) (taskId : String) (interval : Nat)
    (d : TaskRec) :
    (applyPollResponse st taskId interval (PollResponse.ok d)).1.tasks =
      (renderTask st d).1.tasks := by
  simp only [applyPollResponse]
  by_cases hterm : d.state = "completed" ∨ d.state = "failed"
  · rw [if_pos hterm]
  · rw [if_neg hterm]

theorem applySnapshots_batch (bid : String) :
    ∀ (snaps : List TaskRec) (st : St) (b : Batch),
      mapGet st.activeBatches bid = some b →
      (∀ t ∈ snaps, t.batch_id = some bid ∧ t.state = "completed") →
      (applySnapshots st snaps).2 = (batchFold b (snaps.map TaskRec.task_id)).2 ∧
      mapGet (applySnapshots st snaps).1.activeBatches bid =
        some (batchFold b (snaps.map TaskRec.task_id)).1 := by
  intro snaps
  induction snaps with
  | nil =>
    intro st b hreg _
    simpa [applySnapshots, batchFold] using hreg
  | cons t rest ih =>
    intro st b hreg hsn
    obtain ⟨hb, hs⟩ := hsn t (List.mem_cons_self t rest)
    have hrt := renderTask_batch st t bid b hb hs hreg
    have hreg1 : mapGet (renderTask st t).1.activeBatches bid =
        some (batchStep b t.task_id).1 := by
      rw [hrt.1, mapGet_mapSet_self]
    have hsn1 : ∀ u ∈ rest, u.batch_id = some bid ∧ u.state = "completed" :=
      fun u hu => hsn u (List.mem_cons_of_mem t hu)
    have hih := ih (renderTask st t).1 (batchStep b t.task_id).1 hreg1 hsn1
    constructor
    · simp only [applySnapshots, List.map_cons, batchFold]
      rw [List.cons.injEq]
      exact ⟨hrt.2, hih.1⟩
    · simp only [applySnapshots, List.map_cons, batchFold]
      exact hih.2

theorem batchFold_eq_specJoinFlags (M : Finset String) :
    ∀ (ids : List String) (C : Finset String),
      C ⊆ M → (∀ id ∈ ids, id ∈ M) →
      (batchFold ⟨M, C, decide (C = M)⟩ ids).2 = specJoinFlags M C ids := by
  intro ids
  induction ids with
  | nil =>
    intro C _ _
    simp [batchFold, specJoinFlags]
  | cons id rest ih =>
    intro C hCM hids
    have hidM : id ∈ M := hids id (List.mem_cons_self id rest)
    have hsub1 : insert id C ⊆ M := Finset.insert_subset hidM hCM
    have hcard : ((insert id C).card = M.card) ↔ insert id C = M := by
      constructor
      · intro h
        exact Finset.eq_of_subset_of_card_le hsub1 (le_of_eq h.symm)
      · intro h
        rw [h]
    have hstep : batchStep ⟨M, C, decide (C = M)⟩ id =
        (⟨M, insert id C, decide (insert id C = M)⟩,
         decide (insert id C = M ∧ C ≠ M)) := by
      simp only [batchStep]
      by_cases hcm : C = M
      · have h1 : insert id C = M := by
          rw [hcm]
          exact Finset.insert_eq_self.mpr hidM
        rw [if_neg]
        · simp [h1, hcm, hidM]
        · rintro ⟨_, hfalse⟩
          simp [hcm] at hfalse
      · by_cases h1 : insert id C = M
        · rw [if_pos ⟨hcard.mpr h1, by simp [hcm]⟩]
          simp [h1, hcm]
        · rw [if_neg]
          · simp [h1, hcm]
          · rintro ⟨hc, _⟩
            exact h1 (hcard.mp hc)
    simp only [batchFold, specJoinFlags, hstep]
    rw [List.cons.injEq]
    exact ⟨rfl, ih (insert id C) hsub1 (fun u hu => hids u (List.mem_cons_of_mem id hu))⟩

theorem specJoinFlags_count (M : Finset String) :
    ∀ (ids : List String) (C : Finset String),
      C ⊆ M → (∀ id ∈ ids, id ∈ M) →
      (specJoinFlags M C ids).count true =
        if C ∪ ids.toFinset = M ∧ C ≠ M then 1 else 0 := by
  intro ids
  induction ids with
  | nil =>
    intro C _ _
    simp only [specJoinFlags, List.count_nil, List.toFinset_nil, Finset.union_empty]
    rw [if_neg]
    rintro ⟨h1, h2⟩
    exact h2 h1
  | cons id rest ih =>
    intro C hCM hids
    have hidM : id ∈ M := hids id (List.mem_cons_self id rest)
    have hsub1 : insert id C ⊆ M := Finset.insert_subset hidM hCM
    have hrest : ∀ u ∈ rest, u ∈ M := fun u hu => hids u (List.mem_cons_of_mem id hu)
    have hih := ih (insert id C) hsub1 hrest
    have hunion : C ∪ (id :: rest).toFinset = insert id C ∪ rest.toFinset := by
      rw [List.toFinset_cons, Finset.union_insert, Finset.insert_union]
    by_cases hP : insert id C = M ∧ C ≠ M
    · have hC1 : insert id C = M := hP.1
      have hzero : (specJoinFlags M (insert id C) rest).count true = 0 := by
        rw [hih, if_neg]
        rintro ⟨_, h2⟩
        exact h2 hC1
      have hcover : C ∪ (id :: rest).toFinset = M := by
        rw [hunion, hC1]
        apply Finset.union_eq_left.mpr
        intro u hu
        exact hrest u (List.mem_toFinset.mp hu)
      simp only [specJoinFlags, decide_eq_true hP]
      rw [List.count_cons_self, hzero, if_pos ⟨hcover, hP.2⟩]
    · have hflag : decide (insert id C = M ∧ C ≠ M) = false := decide_eq_false hP
      simp only [specJoinFlags, hflag]
      rw [List.count_cons_of_ne (by simp), hih, hunion]
      by_cases hcm : C = M
      · have hC1 : insert id C = M := by
          rw [hcm]
          exact Finset.insert_eq_self.mpr hidM
        rw [if_neg, if_neg]
        · rintro ⟨_, h2⟩
          exact h2 hcm
        · rintro ⟨_, h2⟩
          exact h2 hC1
      · have hC1 : insert id C ≠ M := fun h => hP ⟨h, hcm⟩
        have hiff : (insert id C ∪ rest.toFinset = M ∧ insert id C ≠ M) ↔
            (insert id C ∪ rest.toFinset = M ∧ C ≠ M) :=
          and_congr_right (fun _ => iff_of_true hC1 hcm)
        rw [if_congr hiff rfl rfl]

/-- C1: for a registered batch with member set `M`, over any arrival order of
completed snapshots of member jobs, the batch download button is created by
exactly the application whose task id is the last distinct member added to
the completed set (the flag sequence equals `specJoinFlags`, which is `true`
precisely on the arrival that first makes the completed set equal `M`), and
it is created exactly once when all members eventually complete and never
otherwise — no earlier snapshot and no duplicate completed snapshot for an
already-counted member creates it again. -/
theorem batch_button_exactly_once (st : St) (bid : String) (M : Finset String)
    (snaps : List TaskRec) (hM : M.Nonempty)
    (hreg : mapGet st.activeBatches bid = some ⟨M, ∅, false⟩)
    (hsn : ∀ t ∈ snaps,
      t.batch_id = some bid ∧ t.state = "completed" ∧ t.task_id ∈ M) :
    (applySnapshots st snaps).2 = specJoinFlags M ∅ (snaps.map TaskRec.task_id) ∧
    (applySnapshots st snaps).2.count true =
      (if M ⊆ (snaps.map TaskRec.task_id).toFinset then 1 else 0) := by
  have hne : (∅ : Finset String) ≠ M := by
    obtain ⟨x, hx⟩ := hM
    intro h
    rw [← h] at hx
    exact absurd hx (Finset.not_mem_empty x)
  have hbeq : (⟨M, ∅, false⟩ : Batch) = ⟨M, ∅, decide ((∅ : Finset String) = M)⟩ := by
    simp [hne]
  have hids : ∀ id ∈ snaps.map TaskRec.task_id, id ∈ M := by
    intro id hid
    obtain ⟨t, ht, he⟩ := List.mem_map.mp hid
    rw [← he]
    exact (hsn t ht).2.2
  have hbr := applySnapshots_batch bid snaps st ⟨M, ∅, false⟩ hreg
    (fun t ht => ⟨(hsn t ht).1, (hsn t ht).2.1⟩)
  have hflags : (applySnapshots st snaps).2 =
      specJoinFlags M ∅ (snaps.map TaskRec.task_id) := by
    rw [hbr.1, hbeq]
    exact batchFold_eq_specJoinFlags M (snaps.map TaskRec.task_id) ∅
      (Finset.empty_subset M) hids
  refine ⟨hflags, ?_⟩
  rw [hflags, specJoinFlags_count M (snaps.map TaskRec.task_id) ∅
    (Finset.empty_subset M) hids]
  have hsubM : (snaps.map TaskRec.task_id).toFinset ⊆ M := by
    intro u hu
    exact hids u (List.mem_toFinset.mp hu)
  have hiff : ((∅ : Finset String) ∪ (snaps.map TaskRec.task_id).toFinset = M ∧
      (∅ : Finset String) ≠ M) ↔ M ⊆ (snaps.map TaskRec.task_id).toFinset := by
    rw [Finset.empty_union]
    constructor
    · rintro ⟨h1, _⟩
      rw [h1]
    · intro h1
      exact ⟨Finset.Subset.antisymm hsubM h1, hne⟩
  rw [if_congr hiff rfl rfl]

/-- Concrete batch state for exercising C1: batch `b1` with members `A`, `B`
and snapshots arriving completed in the order `B`, `A`, `B` again. -/
def stC1 : St :=
  ⟨some "tok", some "u", [], [("b1", ⟨{"A", "B"}, ∅, false⟩)], [], [], 0⟩

/-- Arrival order for the C1 witness: `B` completes, then `A` (the last
distinct member), then a duplicate completed snapshot for `B`. -/
def snapsC1 : List TaskRec :=
  [⟨"B", some "b1", "completed", "", none⟩,
   ⟨"A", some "b1", "completed", "", none⟩,
   ⟨"B", some "b1", "completed", "", none⟩]

/-- Witness for C1 at a concrete batch: hypotheses hold and the button flags
come out `[false, true, false]` — only the arrival of the last distinct
member creates the button. -/
theorem batch_button_exactly_once_witness :
    (({"A", "B"} : Finset String).Nonempty ∧
      mapGet stC1.activeBatches "b1" = some ⟨{"A", "B"}, ∅, false⟩ ∧
      (∀ t ∈ snapsC1,
        t.batch_id = some "b1" ∧ t.state = "completed" ∧ t.task_id ∈ ({"A", "B"} : Finset String))) ∧
    ((applySnapshots stC1 snapsC1).2 =
        specJoinFlags {"A", "B"} ∅ (snapsC1.map TaskRec.task_id) ∧
      (applySnapshots stC1 snapsC1).2.count true =
        (if ({"A", "B"} : Finset String) ⊆ (snapsC1.map TaskRec.task_id).toFinset
         then 1 else 0)) :=
  ⟨⟨by decide, by decide, by decide⟩,
   batch_button_exactly_once stC1 "b1" {"A", "B"} snapsC1
     (by decide) (by decide) (by decide)⟩

/-- Concrete state for C2: a valid session with two active subscriptions
`D` and `E`, both of whose poll requests are in flight. -/
def stC2 : St :=
  ⟨some "tok", some "u", [], [], [("D", 0), ("E", 1)], [(0, "D"), (1, "E")], 2⟩

/-- C2 counterexample: with subscriptions `D` and `E` both having a 401
response in flight, applying `D`'s 401 and then `E`'s in-flight 401 surfaces
two `Session expired` alerts, not exactly one — each arriving 401 response
runs the alert in its own callback with no once-only guard. -/
theorem session_expiry_two_alerts :
    (applyPollResponse stC2 "D" 0 PollResponse.unauthorized).2 +
      (applyPollResponse (applyPollResponse stC2 "D" 0 PollResponse.unauthorized).1
        "E" 1 PollResponse.unauthorized).2 = 2 ∧ (2 : Nat) ≠ 1 := by
  constructor
  · decide
  · decide

/-- C2 amended: when one poll observes a 401, the session is invalidated
(token and user removed) and every active subscription is torn down — the
poll map is emptied and, provided every live timer is registered in the map,
no timer remains — and that one response surfaces exactly one notification.
However, each further concurrently in-flight 401 response surfaces its own
additional notification on arrival (see the counterexample), so the number
of notifications equals the number of 401 responses applied, not one. -/
theorem session_expiry_teardown (st : St) (taskId : String) (interval : Nat)
    (htm : ∀ t ∈ st.timers, ∃ kv ∈ st.pollIntervals, kv.2 = t.1) :
    (applyPollResponse st taskId interval PollResponse.unauthorized).1.token = none ∧
    (applyPollResponse st taskId interval PollResponse.unauthorized).1.user = none ∧
    (applyPollResponse st taskId interval PollResponse.unauthorized).1.pollIntervals = [] ∧
    (applyPollResponse st taskId interval PollResponse.unauthorized).1.timers = [] ∧
    (applyPollResponse st taskId interval PollResponse.unauthorized).2 = 1 := by
  have htimers := logout_timers_nil st htm
  refine ⟨rfl, rfl, rfl, ?_, rfl⟩
  show clearInterval (logout st).timers interval = []
  rw [htimers]
  rfl

/-- Witness for the amended C2 at the concrete two-subscription state. -/
theorem session_expiry_teardown_witness :
    (∀ t ∈ stC2.timers, ∃ kv ∈ stC2.pollIntervals, kv.2 = t.1) ∧
    ((applyPollResponse stC2 "D" 0 PollResponse.unauthorized).1.token = none ∧
      (applyPollResponse stC2 "D" 0 PollResponse.unauthorized).1.user = none ∧
      (applyPollResponse stC2 "D" 0 PollResponse.unauthorized).1.pollIntervals = [] ∧
      (applyPollResponse stC2 "D" 0 PollResponse.unauthorized).1.timers = [] ∧
      (applyPollResponse stC2 "D" 0 PollResponse.unauthorized).2 = 1) :=
  ⟨by decide, session_expiry_teardown stC2 "D" 0 (by decide)⟩

/-- Concrete state for C3: job `J` is not subscribed (`pollIntervals` is
empty — it was unsubscribed), its recorded state is `processing`, and batch
`b1` with sole member `J` is registered. -/
def stC3 : St :=
  ⟨some "tok", none, [("J", ⟨"processing", "", false⟩)],
   [("b1", ⟨{"J"}, ∅, false⟩)], [], [], 7⟩

/-- C3 counterexample: with `J` unsubscribed, a late-arriving in-flight
response claiming `J` completed is applied anyway: the recorded state
changed from `processing` to `completed`, and batch completion tracking ran
(the completed set grew and the batch button was created). The claim says
the response must be discarded. -/
theorem late_response_applied :
    mapGet stC3.pollIntervals "J" = none ∧
    (mapGet (applyPollResponse stC3 "J" 3
        (PollResponse.ok ⟨"J", some "b1", "completed", "done", none⟩)).1.tasks "J").map
      TaskView.state = some "completed" ∧
    mapGet (applyPollResponse stC3 "J" 3
        (PollResponse.ok ⟨"J", some "b1", "completed", "done", none⟩)).1.activeBatches "b1" =
      some ⟨{"J"}, {"J"}, true⟩ := by
  refine ⟨by decide, by decide, by decide⟩

/-- C3 amended: the interval callback never re-checks the subscription after
its awaited fetch resolves, so a successful response — even one that was in
flight when the job was unsubscribed — is always applied: the job's recorded
state and detail become the snapshot's. Cancellation only stops future
scheduled cycles. -/
theorem late_response_always_applied (st : St) (taskId : String) (interval : Nat)
    (d : TaskRec) (_hcancelled : mapGet st.pollIntervals taskId = none) :
    (mapGet (applyPollResponse st taskId interval (PollResponse.ok d)).1.tasks
        d.task_id).map TaskView.state = some d.state ∧
    (mapGet (applyPollResponse st taskId interval (PollResponse.ok d)).1.tasks
        d.task_id).map TaskView.detail = some d.detail := by
  rw [applyPollResponse_ok_tasks]
  exact renderTask_tasks_state st d

/-- Witness for the amended C3 at the concrete unsubscribed state. -/
theorem late_response_always_applied_witness :
    mapGet stC3.pollIntervals "J" = none ∧
    ((mapGet (applyPollResponse stC3 "J" 3
        (PollResponse.ok ⟨"J", some "b1", "completed", "done", none⟩)).1.tasks "J").map
      TaskView.state = some "completed" ∧
    (mapGet (applyPollResponse stC3 "J" 3
        (PollResponse.ok ⟨"J", some "b1", "completed", "done", none⟩)).1.tasks "J").map
      TaskView.detail = some "done") :=
  ⟨by decide,
   late_response_always_applied stC3 "J" 3
     ⟨"J", some "b1", "completed", "done", none⟩ (by decide)⟩

/-- Concrete state for C4: job `F` has recorded state `completed`. -/
def stC4 : St :=
  ⟨some "tok", none, [("F", ⟨"completed", "", false⟩)], [], [], [], 0⟩

/-- C4 counterexample: job `F` is recorded `completed`; applying a stale
snapshot claiming `processing` is not rejected — the recorded state becomes
`processing`. The claim says the snapshot is ignored and the state remains
`completed`. -/
theorem stale_snapshot_not_rejected :
    (mapGet stC4.tasks "F").map TaskView.state = some "completed" ∧
    (mapGet (renderTask stC4 ⟨"F", none, "processing", "", none⟩).1.tasks "F").map
      TaskView.state = some "processing" ∧
    ("processing" : String) ≠ "completed" := by
  refine ⟨by decide, by decide, by decide⟩

/-- C4 amended: `renderTask` writes the snapshot's state unconditionally —
there is no terminal-state guard — so for a job whose recorded state is
terminal, applying a snapshot claiming a transition out of it overwrites the
recorded state with the snapshot's claimed state. -/
theorem terminal_state_overwritten (st : St) (t : TaskRec)
    (_hterm : (mapGet st.tasks t.task_id).map TaskView.state = some "completed" ∨
      (mapGet st.tasks t.task_id).map TaskView.state = some "failed") :
    (mapGet (renderTask st t).1.tasks t.task_id).map TaskView.state = some t.state :=
  (renderTask_tasks_state st t).1

/-- Witness for the amended C4: concrete terminal job `F` overwritten by a
stale `processing` snapshot. -/
theorem terminal_state_overwritten_witness :
    ((mapGet stC4.tasks "F").map TaskView.state = some "completed" ∨
      (mapGet stC4.tasks "F").map TaskView.state = some "failed") ∧
    (mapGet (renderTask stC4 ⟨"F", none, "processing", "", none⟩).1.tasks "F").map
      TaskView.state = some "processing" :=
  ⟨Or.inl (by decide),
   terminal_state_overwritten stC4 ⟨"F", none, "processing", "", none⟩
     (Or.inl (by decide))⟩

/-- Concrete state for C5: batch `b1` registered with sole member `A` and an
empty completed set. -/
def stC5 : St :=
  ⟨some "tok", none, [], [("b1", ⟨{"A"}, ∅, false⟩)], [], [], 0⟩

/-- C5 counterexample: a completed snapshot for `X`, which is not a member
of batch `b1` (members `{A}`), is not a no-op: the completed set becomes
`{X}`, which is not a subset of the member set — and because the sizes now
match, the batch download button is even created although `A` never
completed. -/
theorem completed_not_subset :
    mapGet (renderTask stC5 ⟨"X", some "b1", "completed", "", none⟩).1.activeBatches
      "b1" = some ⟨{"A"}, {"X"}, true⟩ ∧
    ¬ (({"X"} : Finset String) ⊆ {"A"}) := by
  refine ⟨by decide, by decide⟩

/-- C5 amended: the batch-tracking block of `renderTask` performs no
membership check: applying a completed snapshot carrying a registered batch
id always inserts the snapshot's task id into that batch's completed set,
member or not (the member set itself is unchanged); so the completed set is
not in general a subset of the member set. -/
theorem markCompleted_no_membership_guard (st : St) (bid : String) (b : Batch)
    (t : TaskRec) (hb : t.batch_id = some bid) (hs : t.state = "completed")
    (hreg : mapGet st.activeBatches bid = some b) :
    (mapGet (renderTask st t).1.activeBatches bid).map Batch.completed =
      some (insert t.task_id b.completed) ∧
    (mapGet (renderTask st t).1.activeBatches bid).map Batch.taskIds =
      some b.taskIds := by
  have h := renderTask_batch st t bid b hb hs hreg
  constructor
  · rw [h.1, mapGet_mapSet_self, Option.map_some']
    exact congrArg some (batchStep_fst b t.task_id).2
  · rw [h.1, mapGet_mapSet_self, Option.map_some']
    exact congrArg some (batchStep_fst b t.task_id).1

/-- Witness for the amended C5: the non-member `X` is inserted into `b1`'s
completed set while the member set stays `{A}`. -/
theorem markCompleted_no_membership_guard_witness :
    mapGet stC5.activeBatches "b1" = some ⟨{"A"}, ∅, false⟩ ∧
    ((mapGet (renderTask stC5 ⟨"X", some "b1", "completed", "", none⟩).1.activeBatches
        "b1").map Batch.completed = some (insert "X" ∅) ∧
      (mapGet (renderTask stC5 ⟨"X", some "b1", "completed", "", none⟩).1.activeBatches
        "b1").map Batch.taskIds = some ({"A"} : Finset String)) :=
  ⟨by decide,
   markCompleted_no_membership_guard stC5 "b1" ⟨{"A"}, ∅, false⟩
     ⟨"X", some "b1", "completed", "", none⟩ rfl rfl (by decide)⟩

/-- Concrete state for C6: job `G` subscribed, with two poll cycles in
flight on the same interval. -/
def stC6 : St :=
  ⟨some "tok", none, [], [], [("G", 0)], [(0, "G")], 1⟩

/-- C6 counterexample: for job `G`, the response of the newer poll cycle
(`completed`) arrives and is applied first, then the older cycle's stale
response (`processing`) arrives and is silently applied too: the final
recorded state is `processing`. The implementation neither serializes a
job's cycles nor tags them with sequence numbers. -/
theorem out_of_order_applied :
    (mapGet (applyPollResponse
        (applyPollResponse stC6 "G" 0
          (PollResponse.ok ⟨"G", none, "completed", "done", none⟩)).1
        "G" 0 (PollResponse.ok ⟨"G", none, "processing", "p", none⟩)).1.tasks
      "G").map TaskView.state = some "processing" := by
  decide

/-- C6 amended: poll responses are applied purely in arrival order — after
two successful responses are applied in sequence, the recorded state is the
later-arriving snapshot's, whatever the issuance order of their cycles — so
a stale response arriving after a newer one overwrites it silently. -/
theorem responses_applied_in_arrival_order (st : St) (taskId : String)
    (h1 h2 : Nat) (dNew dOld : TaskRec) :
    (mapGet (applyPollResponse
        (applyPollResponse st taskId h1 (PollResponse.ok dNew)).1
        taskId h2 (PollResponse.ok dOld)).1.tasks dOld.task_id).map
      TaskView.state = some dOld.state := by
  rw [applyPollResponse_ok_tasks]
  exact (renderTask_tasks_state _ dOld).1

/-- Concrete state for C7: one subscribed job `A` and one registered batch
`b1`. -/
def stC7 : St :=
  ⟨some "tok", some "u", [("A", ⟨"processing", "", false⟩)],
   [("b1", ⟨{"A"}, ∅, false⟩)], [("A", 0)], [(0, "A")], 1⟩

/-- C7 counterexample: after `logout`, the poll registry and the timers are
empty, but `activeBatches` still holds batch `b1` with its member set,
completed set and flag — batch state is not discarded. -/
theorem logout_keeps_batches :
    (logout stC7).pollIntervals = [] ∧ (logout stC7).timers = [] ∧
    (logout stC7).activeBatches = [("b1", ⟨{"A"}, ∅, false⟩)] ∧
    (logout stC7).activeBatches ≠ [] := by
  refine ⟨by decide, by decide, by decide, by decide⟩

/-- C7 amended: `logout` invalidates the session (token and user removed),
clears the rendered task list, cancels every poll timer registered in the
map and empties the map; but it never touches `activeBatches`: the batch
registry, with all member sets, completed sets and flags, survives logout
unchanged. -/
theorem logout_clears_polls_keeps_batches (st : St)
    (htm : ∀ t ∈ st.timers, ∃ kv ∈ st.pollIntervals, kv.2 = t.1) :
    (logout st).token = none ∧ (logout st).user = none ∧
    (logout st).tasks = [] ∧ (logout st).pollIntervals = [] ∧
    (logout st).timers = [] ∧ (logout st).activeBatches = st.activeBatches :=
  ⟨rfl, rfl, rfl, rfl, logout_timers_nil st htm, rfl⟩

/-- Witness for the amended C7 at the concrete one-job, one-batch state. -/
theorem logout_clears_polls_keeps_batches_witness :
    (∀ t ∈ stC7.timers, ∃ kv ∈ stC7.pollIntervals, kv.2 = t.1) ∧
    ((logout stC7).token = none ∧ (logout stC7).user = none ∧
      (logout stC7).tasks = [] ∧ (logout stC7).pollIntervals = [] ∧
      (logout stC7).timers = [] ∧ (logout stC7).activeBatches = stC7.activeBatches) :=
  ⟨by decide, logout_clears_polls_keeps_batches stC7 (by decide)⟩

/-- C8: subscribing is idempotent. Calling `pollTask` twice without an
intervening unsubscribe gives the same state as calling it once; starting
from a state with no live timer and no registry entry for the id, after the
two calls exactly one live interval timer and exactly one registry entry
exist for that id. -/
theorem pollTask_idempotent (st : St) (taskId : String)
    (hT : st.timers.filter (fun t => t.2 == taskId) = [])
    (hP : mapGet st.pollIntervals taskId = none) :
    pollTask (pollTask st taskId) taskId = pollTask st taskId ∧
    ((pollTask (pollTask st taskId) taskId).timers.filter
        (fun t => t.2 == taskId)).length = 1 ∧
    ((pollTask (pollTask st taskId) taskId).pollIntervals.filter
        (fun kv => kv.1 == taskId)).length = 1 := by
  have h1 : pollTask st taskId =
      { st with
          timers := st.timers ++ [(st.nextTimer, taskId)]
          pollIntervals := mapSet st.pollIntervals taskId st.nextTimer
          nextTimer := st.nextTimer + 1 } := by
    simp only [pollTask, hP]
  have hget : mapGet (pollTask st taskId).pollIntervals taskId = some st.nextTimer := by
    rw [h1]
    exact mapGet_mapSet_self st.pollIntervals taskId st.nextTimer
  have h2 : pollTask (pollTask st taskId) taskId = pollTask st taskId := by
    generalize pollTask st taskId = st2 at hget ⊢
    simp only [pollTask, hget]
  refine ⟨h2, ?_, ?_⟩
  · rw [h2, h1]
    show ((st.timers ++ [(st.nextTimer, taskId)]).filter
      (fun t => t.2 == taskId)).length = 1
    rw [List.filter_append, hT]
    simp
  · rw [h2, h1]
    show ((mapSet st.pollIntervals taskId st.nextTimer).filter
      (fun kv => kv.1 == taskId)).length = 1
    rw [mapSet_of_not_mem st.pollIntervals taskId st.nextTimer hP, List.filter_append]
    have hnil : st.pollIntervals.filter (fun kv => kv.1 == taskId) = [] := by
      rw [List.filter_eq_nil_iff]
      intro kv hkv
      have hne := mapGet_none_forall st.pollIntervals taskId hP kv hkv
      simpa using hne
    rw [hnil]
    simp

/-- Witness for C8: double-subscribing `J` from the empty state yields one
timer and one registry entry for `J`. -/
theorem pollTask_idempotent_witness :
    ((⟨none, none, [], [], [], [], 0⟩ : St).timers.filter
        (fun t => t.2 == "J") = [] ∧
      mapGet (⟨none, none, [], [], [], [], 0⟩ : St).pollIntervals "J" = none) ∧
    (pollTask (pollTask ⟨none, none, [], [], [], [], 0⟩ "J") "J" =
        pollTask ⟨none, none, [], [], [], [], 0⟩ "J" ∧
      ((pollTask (pollTask ⟨none, none, [], [], [], [], 0⟩ "J") "J").timers.filter
          (fun t => t.2 == "J")).length = 1 ∧
      ((pollTask (pollTask ⟨none, none, [], [], [], [], 0⟩ "J") "J").pollIntervals.filter
          (fun kv => kv.1 == "J")).length = 1) :=
  ⟨⟨rfl, rfl⟩, pollTask_idempotent ⟨none, none, [], [], [], [], 0⟩ "J" rfl rfl⟩

/-- C9: the prepared upload carries at most one of the two background
fields, determined by the selected option: `background_color` survives only
when the option is `color`, `background_image` only when it is `image`; any
other option (including `none` or an absent field) removes both. -/
theorem prepareUpload_background (f : UploadForm) :
    ((prepareUpload f).background_color = none ∨
      (prepareUpload f).background_image = none) ∧
    (prepareUpload f).background_color =
      (if f.background_type = some "color" then f.background_color else none) ∧
    (prepareUpload f).background_image =
      (if f.background_type = some "image" then f.background_image else none) := by
  by_cases hc : f.background_type = some "color"
  · have hi : f.background_type ≠ some "image" := by
      rw [hc]
      intro h
      exact absurd (Option.some.inj h) (by decide)
    simp [prepareUpload, hc, hi]
  · by_cases hi : f.background_type = some "image"
    · simp [prepareUpload, hc, hi]
    · simp [prepareUpload, hc, hi]

/-- Concrete state for C10: only the unrelated batch `known` is registered. -/
def stC10 : St :=
  ⟨some "tok", none, [], [("known", ⟨{"A"}, ∅, false⟩)], [], [], 0⟩

/-- C10: applying a completed snapshot whose batch id is not registered in
`activeBatches` still records the snapshot's state and detail for the job,
but leaves the batch registry untouched and never creates the batch
download button — the unregistered lookup is a silent no-op. -/
theorem unregistered_batch_silent_noop (st : St) (t : TaskRec) (bid : String)
    (hb : t.batch_id = some bid) (hs : t.state = "completed")
    (hreg : mapGet st.activeBatches bid = none) :
    (renderTask st t).2 = false ∧
    (renderTask st t).1.activeBatches = st.activeBatches ∧
    (mapGet (renderTask st t).1.tasks t.task_id).map TaskView.state = some t.state ∧
    (mapGet (renderTask st t).1.tasks t.task_id).map TaskView.detail = some t.detail := by
  refine ⟨?_, ?_, (renderTask_tasks_state st t).1, (renderTask_tasks_state st t).2⟩
  · simp [renderTask, hb, hs, hreg]
  · simp [renderTask, hb, hs, hreg]

/-- Witness for C10: a completed single-job snapshot whose batch id
`nobatch` is unknown updates the job display only. -/
theorem unregistered_batch_silent_noop_witness :
    (mapGet stC10.activeBatches "nobatch" = none) ∧
    ((renderTask stC10 ⟨"S", some "nobatch", "completed", "ok", none⟩).2 = false ∧
      (renderTask stC10 ⟨"S", some "nobatch", "completed", "ok", none⟩).1.activeBatches =
        stC10.activeBatches ∧
      (mapGet (renderTask stC10 ⟨"S", some "nobatch", "completed", "ok", none⟩).1.tasks
        "S").map TaskView.state = some "completed" ∧
      (mapGet (renderTask stC10 ⟨"S", some "nobatch", "completed", "ok", none⟩).1.tasks
        "S").map TaskView.detail = some "ok") :=
  ⟨by decide,
   unregistered_batch_silent_noop stC10 ⟨"S", some "nobatch", "completed", "ok", none⟩
     "nobatch" rfl rfl (by decide)⟩

end DocToImg
